import Mathlib

/-!
GlibcDlfcnShim.h: a verification development for `Sources/GlibcDlfcnShim/include/GlibcDlfcnShim.h`.

The header holds no function body: it is a guarded, target-gated block of three
external declarations.  It is embedded as the list of its logical lines
(comments removed, as translation phase 3 does), and given meaning by the
conditional-inclusion rules of the C preprocessor, by typedef resolution, and by
the record layout rule of the C ABI.
-/

namespace GlibcDlfcnShim

/-! ## Syntax of the header -/

/-- Type expressions written in the header. -/
inductive CType where
  | void
  | char
  | int
  | const (t : CType)
  | ptr (t : CType)
  | named (n : String)
  deriving DecidableEq, Repr

/-- External declarations: `typedef struct { members } name;`, `typedef T name;`
and a function prototype.  Members and parameters are (type, identifier). -/
inductive Decl where
  | typedefStruct (members : List (CType × String)) (name : String)
  | typedefAlias (target : CType) (name : String)
  | function (ret : CType) (name : String) (params : List (CType × String))
  deriving DecidableEq, Repr

/-- Logical lines of the header after comment removal. -/
inductive Line where
  | ifNotDefined (m : String)  -- #ifndef m
  | ifDefined (m : String)  -- #ifdef m
  | define (m : String)
  | endif
  | decl (d : Decl)
  deriving DecidableEq, Repr

/-- Identifier a declaration introduces. -/
def Decl.name : Decl → String
  | .typedefStruct _ n => n
  | .typedefAlias _ n => n
  | .function _ n _ => n

/-- Lines 11-17: `typedef struct { const char *dli_fname; void *dli_fbase;
const char *dli_sname; void *dli_saddr; } Dl_info;` -/
def Dl_info : Decl :=
  .typedefStruct
    [ (.ptr (.const .char), "dli_fname"),
      (.ptr .void, "dli_fbase"),
      (.ptr (.const .char), "dli_sname"),
      (.ptr .void, "dli_saddr") ]
    "Dl_info"

/-- Line 19: `typedef Dl_info dl_info;` -/
def dl_info : Decl :=
  .typedefAlias (.named "Dl_info") "dl_info"

/-- Line 23: `int dladdr (const void *__address, Dl_info *__info);` -/
def dladdr : Decl :=
  .function .int "dladdr"
    [ (.ptr (.const .void), "__address"),
      (.ptr (.named "Dl_info"), "__info") ]

/-- The header, line by line (lines 5, 6, 8, 11-17, 19, 23, 24, 26). -/
def header : List Line :=
  [ .ifNotDefined "SHIM_H",
    .define "SHIM_H",
    .ifDefined "__linux__",
    .decl Dl_info,
    .decl dl_info,
    .decl dladdr,
    .endif,
    .endif ]

/-! ## Conditional inclusion -/

/-- Preprocessor state: the macros defined so far, the open conditional groups
(innermost first, `true` when the group's own condition held) and the
declarations emitted so far. -/
structure PP where
  macros : List String
  conds : List Bool
  out : List Decl
  deriving DecidableEq, Repr

/-- A line is processed only when every enclosing group is being included. -/
def PP.active (s : PP) : Bool :=
  s.conds.all id

/-- One logical line.  `#endif` without an open group is an error. -/
def step (s : PP) : Line → Option PP
  | .ifNotDefined m => some { s with conds := decide (m ∉ s.macros) :: s.conds }
  | .ifDefined m => some { s with conds := decide (m ∈ s.macros) :: s.conds }
  | .define m =>
      if s.active then some { s with macros := m :: s.macros } else some s
  | .endif =>
      match s.conds with
      | [] => none
      | _ :: rest => some { s with conds := rest }
  | .decl d =>
      if s.active then some { s with out := s.out ++ [d] } else some s

/-- Runs the lines of a file in order. -/
def run : PP → List Line → Option PP
  | s, [] => some s
  | s, l :: ls =>
      match step s l with
      | none => none
      | some s' => run s' ls

/-- Processing of one file from a set of defined macros: the macros defined
afterwards and the declarations emitted.  A conditional left open at the end of
the file is an error. -/
def processFile (file : List Line) (defs : List String) :
    Option (List String × List Decl) :=
  match run { macros := defs, conds := [], out := [] } file with
  | some s => if s.conds.isEmpty then some (s.macros, s.out) else none
  | none => none

/-- `#include "GlibcDlfcnShim.h"` under the macros `defs`. -/
def includeHeader (defs : List String) : Option (List String × List Decl) :=
  processFile header defs

/-- A translation unit that includes the header `n` times in a row: the final
macros and all declarations emitted, in order. -/
def includeTimes : Nat → List String → Option (List String × List Decl)
  | 0, defs => some (defs, [])
  | n + 1, defs =>
      match includeHeader defs with
      | none => none
      | some (defs', ds) =>
          match includeTimes n defs' with
          | none => none
          | some (defs'', ds') => some (defs'', ds ++ ds')

/-! ## Typedef resolution and record layout -/

/-- Member list of a record typedef as written. -/
def Decl.members : Decl → Option (List (CType × String))
  | .typedefStruct ms _ => some ms
  | _ => none

theorem includeHeader_guarded (defs : List String) (h : "SHIM_H" ∈ defs) :
    includeHeader defs = some (defs, []) := by
  simp [includeHeader, processFile, header, run, step, PP.active, h]

theorem includeHeader_fresh_linux (defs : List String) (hg : "SHIM_H" ∉ defs)
    (hl : "__linux__" ∈ defs) :
    includeHeader defs = some ("SHIM_H" :: defs, [Dl_info, dl_info, dladdr]) := by
  simp [includeHeader, processFile, header, run, step, PP.active, hg, hl]

theorem includeHeader_fresh_other (defs : List String) (hg : "SHIM_H" ∉ defs)
    (hl : "__linux__" ∉ defs) :
    includeHeader defs = some ("SHIM_H" :: defs, []) := by
  simp [includeHeader, processFile, header, run, step, PP.active, hg, hl]

theorem includeTimes_succ (n : Nat) (defs : List String) :
    includeTimes (n + 1) defs = includeTimes 1 defs := by
  have guarded : ∀ (k : Nat) (ms : List String), "SHIM_H" ∈ ms →
      includeTimes k ms = some (ms, []) := by
    intro k
    induction k with
    | zero => intro ms _; rfl
    | succ k ih =>
        intro ms h
        simp [includeTimes, includeHeader_guarded ms h, ih ms h]
  by_cases hg : "SHIM_H" ∈ defs
  · rw [guarded (n + 1) defs hg, guarded 1 defs hg]
  · by_cases hl : "__linux__" ∈ defs
    · simp [includeTimes, includeHeader_fresh_linux defs hg hl,
        guarded n ("SHIM_H" :: defs) (by simp)]
    · simp [includeTimes, includeHeader_fresh_other defs hg hl,
        guarded n ("SHIM_H" :: defs) (by simp)]

/-! ## Claims -/

/-- Claim C10: inclusion is idempotent through the SHIM_H guard.  For every set
of defined macros, processing the header succeeds and leaves SHIM_H defined;
processing it with SHIM_H already defined emits no declaration and changes
nothing, also when `__linux__` is defined; and a translation unit that includes
the header twice (or any larger number of times) gets exactly the macros and
declarations of including it once. -/
theorem include_guard_idempotent (defs : List String) :
    (∃ defs' ds, includeHeader defs = some (defs', ds) ∧ "SHIM_H" ∈ defs') ∧
    ("SHIM_H" ∈ defs → includeHeader defs = some (defs, [])) ∧
    ("SHIM_H" ∈ defs → "__linux__" ∈ defs →
      (includeHeader defs).map Prod.snd = some []) ∧
    includeTimes 2 defs = includeTimes 1 defs ∧
    (∀ n, includeTimes (n + 1) defs = includeTimes 1 defs) ∧
    (includeTimes 1 defs).map Prod.snd = (includeHeader defs).map Prod.snd := by
  refine ⟨?_, includeHeader_guarded defs, ?_, includeTimes_succ 1 defs,
    fun n => includeTimes_succ n defs, ?_⟩
  · by_cases hg : "SHIM_H" ∈ defs
    · exact ⟨defs, [], includeHeader_guarded defs hg, hg⟩
    · by_cases hl : "__linux__" ∈ defs
      · exact ⟨_, _, includeHeader_fresh_linux defs hg hl, by simp⟩
      · exact ⟨_, _, includeHeader_fresh_other defs hg hl, by simp⟩
  · intro hg _
    simp [includeHeader_guarded defs hg]
  · cases h : includeHeader defs with
    | none => simp [includeTimes, h]
    | some r => simp [includeTimes, h]

/-- Witness for C10: a Linux translation unit in which SHIM_H is
already defined. -/
theorem include_guard_idempotent_witness :
    "SHIM_H" ∈ ["SHIM_H", "__linux__"] ∧ "__linux__" ∈ ["SHIM_H", "__linux__"] ∧
    includeHeader ["SHIM_H", "__linux__"] = some (["SHIM_H", "__linux__"], []) ∧
    (includeHeader ["SHIM_H", "__linux__"]).map Prod.snd = some [] :=
  ⟨by decide, by decide,
    (include_guard_idempotent ["SHIM_H", "__linux__"]).2.1 (by decide),
    (include_guard_idempotent ["SHIM_H", "__linux__"]).2.2.1 (by decide) (by decide)⟩

end GlibcDlfcnShim
